import Mathlib

/-!
Verification of the pvci provisioning workflow (txn2/pvci, `pvci.go`).

The Go program orchestrates Kubernetes PersistentVolumeClaims (PVCs) and
copy Jobs against an S3/MinIO object store.  The definitions below are a
shallow embedding of the current version of `pvci.go` (the `API` type):

* `checkPVC`      embeds `(a *API) checkPVC` — the claim-bound backoff poll;
* `checkJob`      embeds `(a *API) checkJob` — the job-completion poll,
                  with `maxAttemptsFor` embedding its max-attempts arithmetic;
* `GetSize`       embeds `(a *API) GetSize` — the object-listing loop;
* `GetStatus`     embeds `(a *API) GetStatus` — the status reporter;
* `CreatePVC`     embeds `(a *API) CreatePVC` — the provisioning workflow,
                  written as a chain of stage functions mirroring the Go
                  statement order, over an environment record `CreateEnv`
                  holding the responses of the cluster and the object store.

External calls are modelled by explicit response fields: each call site of
the Go function reads one field (or one index of a response function) of the
environment.  Mutating calls are recorded in an action trace; suppressed
(logged-only) errors are recorded in a log list.  Float64 arithmetic is
modelled exactly: the capacity computation (`sz * 1.048576 * pctOver`) goes
through `fl`, the binary64 round-to-nearest-even function on exact
rationals, while the `checkJob` budget arithmetic (`float64(timeout) * 1.5`,
compared against 5 and divided by 5 under `math.Ceil`) is modelled with
exact rationals, with which it agrees for every reachable timeout:
`1.5 * t` is exactly representable below 2^53, and the correctly-rounded
division by 5 can move `math.Ceil` across an integer boundary only when
`3t/10` is an integer, in which case the division is exact.
-/

namespace Pvci

/-- Phase of a `PersistentVolumeClaim` (`coreV1.ClaimPending`,
`coreV1.ClaimBound`, `coreV1.ClaimLost`). -/
inductive ClaimPhase
  | Pending
  | Bound
  | Lost
  deriving DecidableEq

/-- Renders a phase the way Go's `%s` formatting of the phase constant does. -/
def phaseName : ClaimPhase → String
  | ClaimPhase.Pending => "Pending"
  | ClaimPhase.Bound => "Bound"
  | ClaimPhase.Lost => "Lost"

/-- The `batchV1.JobStatus` counters read by `checkJob` (int32 in Go). -/
structure JobStatus where
  active : Int
  succeeded : Int
  failed : Int
  deriving DecidableEq

deriving instance DecidableEq for Except

/-- Outcome of one polling loop: the returned error (if any), the sequence of
sleep durations performed (in seconds, in order), and the number of status
checks (Kubernetes `Get` calls) performed. -/
structure PollOutcome where
  result : Except String Unit
  sleeps : List Nat
  checks : Nat
  deriving DecidableEq

/-- `retrySecs := []int{1, 2, 2, 4, 4, 4, 8, 8, 8, 8, 8}` from `checkPVC`. -/
def retrySecs : List Nat := [1, 2, 2, 4, 4, 4, 8, 8, 8, 8, 8]

/-- The loop body of `checkPVC`.  The Go loop keeps an `attempt` counter and
returns the timeout error as soon as `attempt > len(retrySecs)-1`; otherwise it
sleeps `retrySecs[attempt]` seconds, issues `getPVC` (modelled by
`get attempt`, `Except.error` when the Get call fails), returns `nil` when the
phase is `Bound`, and loops.  Here the not-yet-consumed suffix of `retrySecs`
is passed alongside the counter, so that the head of the list is
`retrySecs[attempt]` and the empty list is the `attempt > len-1` exit. -/
def checkPVCLoop (get : Nat → Except String ClaimPhase) :
    Nat → List Nat → PollOutcome
  | _, [] =>
    { result := Except.error "requested PVC is unable to reach Bound phase"
      sleeps := []
      checks := 0 }
  | attempt, d :: rest =>
    match get attempt with
    | Except.error e => { result := Except.error e, sleeps := [d], checks := 1 }
    | Except.ok phase =>
      if phase = ClaimPhase.Bound then
        { result := Except.ok (), sleeps := [d], checks := 1 }
      else
        let r := checkPVCLoop get (attempt + 1) rest
        { result := r.result, sleeps := d :: r.sleeps, checks := r.checks + 1 }

/-- `(a *API) checkPVC(namespace, name)`: the claim-bound wait, as a function
of the sequence of `getPVC` responses for the polled claim. -/
def checkPVC (get : Nat → Except String ClaimPhase) : PollOutcome :=
  checkPVCLoop get 0 retrySecs

/-- `const JobAttemptInterval = 5` (seconds). -/
def JobAttemptInterval : Nat := 5

/-- The max-attempts computation at the top of `checkJob`:
`maxAttempts := 1`; `maxTime := float64(timeout) * 1.5`;
`if maxTime > 5 { maxAttempts = ceil(maxTime / 5) }`;
`if maxAttempts < 6 { maxAttempts = 6 }`.
`maxTime > 5` is `3 * timeout > 10` and `ceil(maxTime / 5)` is
`ceil(3 * timeout / 10) = (3 * timeout + 9) / 10` in exact arithmetic. -/
def maxAttemptsFor (timeout : Nat) : Nat :=
  let m := if 3 * timeout > 10 then (3 * timeout + 9) / 10 else 1
  if m < 6 then 6 else m

/-- The loop body of `checkJob`.  Each Go iteration first sleeps
`JobAttemptInterval` seconds, then returns the timeout error if
`attempt > maxAttempts`, otherwise issues `getJob` (modelled by
`get attempt`), returns "job failed" when `Failed > 0`, `nil` when
`Succeeded > 0`, and loops.  `remaining` is `maxAttempts + 1 - attempt`,
so `remaining = 0` is the `attempt > maxAttempts` exit (which still
sleeps once before returning). -/
def checkJobLoop (get : Nat → Except String JobStatus) :
    Nat → Nat → PollOutcome
  | _, 0 =>
    { result := Except.error "job is unable to complete in allotted time"
      sleeps := [JobAttemptInterval]
      checks := 0 }
  | attempt, r + 1 =>
    match get attempt with
    | Except.error e =>
      { result := Except.error e, sleeps := [JobAttemptInterval], checks := 1 }
    | Except.ok js =>
      if js.failed > 0 then
        { result := Except.error "job failed"
          sleeps := [JobAttemptInterval]
          checks := 1 }
      else if js.succeeded > 0 then
        { result := Except.ok (), sleeps := [JobAttemptInterval], checks := 1 }
      else
        let out := checkJobLoop get (attempt + 1) r
        { result := out.result
          sleeps := JobAttemptInterval :: out.sleeps
          checks := out.checks + 1 }

/-- `(a *API) checkJob(namespace, name, timeout)`: the job-completion wait,
as a function of the sequence of `getJob` responses. -/
def checkJob (get : Nat → Except String JobStatus) (timeout : Nat) :
    PollOutcome :=
  checkJobLoop get 0 (maxAttemptsFor timeout + 1)

/-!
### GetSize

`(a *API) GetSize` ranges over the `ListObjectsV2` channel.  Each received
object either carries a per-object error (`object.Err`, modelled
`Except.error`) — in which case the function returns the counters accumulated
so far together with that error — or a size, which is accumulated
(`objCount += 1; totalSize += object.Size`).  A drained channel returns the
totals with a nil error.  Sizes are int64, modelled by `Int`.
-/

/-- The `for object := range objectCh` loop of `GetSize`, with the two
accumulators `objCount` and `totalSize` (both initialised to 0). -/
def GetSizeLoop : List (Except String Int) → Int → Int → Int × Int × Option String
  | [], objCount, totalSize => (objCount, totalSize, none)
  | Except.error e :: _, objCount, totalSize => (objCount, totalSize, some e)
  | Except.ok size :: rest, objCount, totalSize =>
      GetSizeLoop rest (objCount + 1) (totalSize + size)

/-- `(a *API) GetSize(pvcRequestConfig) (int64, int64, error)` as a function
of the object listing stream. -/
def GetSize (objects : List (Except String Int)) : Int × Int × Option String :=
  GetSizeLoop objects 0 0

/-!
### GetStatus
-/

/-- The fields of the `StatusReport` struct returned by the `/status`
endpoint.  `PVCStatus` (a `coreV1.PersistentVolumeClaimStatus` snapshot) is
modelled by its phase; the Go zero value (empty phase) is `none`. -/
structure StatusReport where
  injectorHasError : Bool := false
  injectorError : String := ""
  injectorState : String := ""
  pvcHasError : Bool := false
  pvcError : String := ""
  pvcStatusPhase : Option ClaimPhase := none
  deriving DecidableEq

/-- Responses of the cluster to the two reads made by `GetStatus`:
the labelled pod `List` (error, and returned pod list — `none` models a nil
list pointer, the list entries are the pod phase strings) and the claim
`Get` (error, and returned object — `none` models a nil pointer). -/
structure StatusEnv where
  podListErr : Option String
  podList : Option (List String)
  pvcGetErr : Option String
  pvcGet : Option ClaimPhase

/-- `(a *API) GetStatus(pvcRequestConfig) (StatusReport, error)`.  The Go
function starts from the zero `StatusReport` and updates it in statement
order: list error, "no injectors found" when the pod list is nil or empty,
the first pod's phase otherwise, then claim-get error and claim status.  It
always returns `(sr, nil)`. -/
def GetStatus (env : StatusEnv) : StatusReport × Option String :=
  let sr0 : StatusReport := {}
  let sr1 := match env.podListErr with
    | some e => { sr0 with injectorHasError := true, injectorError := e }
    | none => sr0
  let sr2 := if env.podList = none ∨ (env.podList.getD []).length < 1 then
      { sr1 with injectorHasError := true, injectorError := "no injectors found" }
    else sr1
  let sr3 := match env.podList with
    | some (p :: _) => { sr2 with injectorState := p }
    | _ => sr2
  let sr4 := match env.pvcGetErr with
    | some e => { sr3 with pvcHasError := true, pvcError := e }
    | none => sr3
  let sr5 := match env.pvcGet with
    | some ph => { sr4 with pvcStatusPhase := some ph }
    | none => sr4
  (sr5, none)

/-!
### CreatePVC
-/

/-!
#### IEEE 754 binary64 arithmetic

`CreatePVC` computes the requested capacity in float64 (Go):
`pctOver := 1 + (float64(a.VolumeOveragePercent) / 100)` and
`int64(math.Ceil((float64(sz) * 1.048576) * pctOver))`.  Positive binary64
values in the normal range are exactly the rationals `m * 2^(e-52)` with
`2^52 ≤ m < 2^53`, and every operation in this chain (int-to-float
conversion, the constant conversion of the literal `1.048576`, division,
addition, multiplication) is correctly rounded to nearest, ties to even.
`fl` below is that rounding function on positive rationals.  The reachable
inputs are nonnegative, no reachable positive value is subnormal
(`pct/100 ≥ 1/100` whenever positive), and the products stay far below the
overflow threshold `2^1024` for int64/int inputs, so neither subnormals nor
overflow are modelled.  `math.Ceil` of a double and the `int64` conversion
of its integral result are exact (any double `≥ 2^52` is already integral,
and below `2^52` every integer is representable), modelled by `Int.ceil`.
-/

/-- `⌊log2 n⌋` for `1 ≤ n`, by structural recursion on a fuel bound
(`fuel ≥ n` suffices). -/
def log2Fuel : Nat → Nat → Nat
  | 0, _ => 0
  | fuel + 1, n => if n ≤ 1 then 0 else log2Fuel fuel (n / 2) + 1

/-- `⌈log2 n⌉` for `1 ≤ n`, by structural recursion on a fuel bound
(`fuel ≥ n` suffices). -/
def clog2Fuel : Nat → Nat → Nat
  | 0, _ => 0
  | fuel + 1, n => if n ≤ 1 then 0 else clog2Fuel fuel ((n + 1) / 2) + 1

/-- `⌊log2 n⌋` for `1 ≤ n`. -/
def nlog2 (n : Nat) : Nat := log2Fuel n n

/-- `⌈log2 n⌉` for `1 ≤ n`. -/
def nclog2 (n : Nat) : Nat := clog2Fuel n n

/-- The binade exponent `⌊log2 x⌋` of a positive rational: the unique `e`
with `2^e ≤ x < 2^(e+1)`. -/
def qlog2 (x : ℚ) : ℤ :=
  if 1 ≤ x then (nlog2 (Nat.floor x) : ℤ) else -(nclog2 (Nat.ceil x⁻¹) : ℤ)

/-- Round a rational to the nearest integer, ties to even. -/
def rhe (q : ℚ) : ℤ :=
  if q - Int.floor q < 1 / 2 then Int.floor q
  else if 1 / 2 < q - Int.floor q then Int.floor q + 1
  else if Int.floor q % 2 = 0 then Int.floor q else Int.floor q + 1

/-- Binary64 rounding (round to nearest, ties to even) of a positive
rational in the normal finite range: the representable values around `x`
are spaced `2^(⌊log2 x⌋ - 52)` apart.  Nonpositive inputs (only `x = 0`
occurs in the modelled chain) return 0. -/
def fl (x : ℚ) : ℚ :=
  if x ≤ 0 then 0
  else rhe (x / 2 ^ (qlog2 x - 52)) * 2 ^ (qlog2 x - 52)

/-- The binary64 value of the source literal `1.048576` (the correctly
rounded conversion of `1048576 / 1000000`). -/
def float64Const1048576 : ℚ := fl (1048576 / 1000000)

/-- `pctOver := 1 + (float64(a.VolumeOveragePercent) / 100)`, each float64
operation correctly rounded: the int-to-float conversion of the percentage,
the division by the exact constant 100, and the addition of 1. -/
def pctOver (volumeOveragePercent : Nat) : ℚ :=
  fl (1 + fl (fl (volumeOveragePercent : ℚ) / 100))

/-- The storage quantity requested for both claims:
`storageQtyBuffer.Set(int64(math.Ceil((float64(sz) * 1.048576) * pctOver)))`,
each float64 operation correctly rounded; `math.Ceil` and the `int64`
conversion of its integral result are exact on the reachable values and
modelled by `Int.ceil`. -/
def requestedCapacity (sz : Nat) (volumeOveragePercent : Nat) : ℤ :=
  Int.ceil (fl (fl (fl (sz : ℚ) * float64Const1048576)
    * pctOver volumeOveragePercent))

/-- The capacity formula as worded by the specification (§4.4 step 2, §8):
`requested_capacity = ceil(total_bytes * 1.048576 * (1 + overage_percent/100))`,
read in exact real arithmetic.  Stated separately from `requestedCapacity`
(which follows the code's float64 evaluation) so the two can be compared. -/
def specRequestedCapacity (totalBytes overagePercent : Nat) : ℤ :=
  Int.ceil ((totalBytes : ℚ) * (1048576 / 1000000) * (1 + (overagePercent : ℚ) / 100))

/-- The object returned by a Kubernetes `Get` of a PVC: its name and phase.
client-go returns an empty object (empty name) when the call fails. -/
structure GoPVC where
  name : String
  phase : ClaimPhase
  deriving DecidableEq

/-- The Go guard `existingPVC != nil && existingPVC.Name != ""` used by both
validation checks of `CreatePVC`. -/
def foundExisting : Option GoPVC → Bool
  | some pvc => pvc.name != ""
  | none => false

/-- `Status.Phase` of a validation `Get` result, as formatted into the
conflict error message (empty for a nil pointer, which the guard excludes). -/
def foundPhase : Option GoPVC → String
  | some pvc => phaseName pvc.phase
  | none => ""

/-- `.Name` of a validation `Get` result. -/
def foundName : Option GoPVC → String
  | some pvc => pvc.name
  | none => ""

/-- The parts of `Config` used by `CreatePVC`.  `Service`, `Version`,
`MCImage` and the logger only feed labels, the job image and log output,
which are not modelled. -/
structure Config where
  volumeOveragePercent : Nat
  avgMPS : Nat

/-- The parts of `PVCRequestConfig` that determine the control flow of
`CreatePVC`: the target namespace and name, and the storage class
(the S3 fields only feed the job specification and the listing call). -/
structure PVCRequestConfig where
  ns : String
  name : String
  storageClass : String

/-- `srcPVCName := fmt.Sprintf("%s-src", pvcRequestConfig.Name)`. -/
def srcPVCName (req : PVCRequestConfig) : String := req.name ++ "-src"

/-- `jobName := fmt.Sprintf("%s-injector", pvcRequestConfig.Name)`. -/
def jobName (req : PVCRequestConfig) : String := req.name ++ "-injector"

/-- Responses of the cluster and the object store to the calls `CreatePVC`
makes, one field per call site, in program order.  The `..Err` fields are
`none` for a successful call.  `getExistingErr` and `getExistingSrcErr` are
the error returns of the two validation `Get` calls, which the Go code
assigns to the blank identifier (`existingPVC, _ := pvcClient.Get(...)`). -/
structure CreateEnv where
  getExistingErr : Option String
  getExisting : Option GoPVC
  getExistingSrcErr : Option String
  getExistingSrc : Option GoPVC
  sizeResult : Except String (Nat × Nat)
  createSrcPVCErr : Option String
  srcPhase : Nat → Except String ClaimPhase
  createJobErr : Option String
  jobStatus : Nat → Except String JobStatus
  deleteJobErr : Option String
  createFinalPVCErr : Option String
  postCreatePhase : Nat → Except String ClaimPhase
  deleteSrcPVCErr : Option String
  patchSrcPVCErr : Option String

/-- Cluster-mutating calls and bound-waits issued by `CreatePVC`, recorded in
program order.  `createPVC` carries the storage capacity requested;
`boundWait` carries the name of the claim polled by `checkPVC`. -/
inductive Action
  | createPVC (name : String) (capacity : ℤ)
  | createJob (name : String)
  | deletePVC (name : String)
  | deleteJob (name : String)
  | patchPVC (name : String)
  | boundWait (name : String)
  deriving DecidableEq

/-- Result of one `CreatePVC` run: the returned error (if any), the mutating
calls and bound-waits issued, and the messages of suppressed (logged-only)
errors. -/
structure RunResult where
  result : Except String Unit
  actions : List Action
  logs : List String
  deriving DecidableEq

/-- Prefixes an action onto a run result. -/
def withAction (a : Action) (r : RunResult) : RunResult :=
  { r with actions := a :: r.actions }

/-- Prefixes log entries onto a run result. -/
def withLog (l : List String) (r : RunResult) : RunResult :=
  { r with logs := l ++ r.logs }

/-- Step 9 of `CreatePVC` (comment `delete srcPVC` onwards): delete the
staging claim, logging a failure without returning it, then unconditionally
patch the staging claim to remove `/metadata/finalizers/0`, again logging a
failure without returning it, and return `nil`. -/
def stageReclaim (req : PVCRequestConfig) (env : CreateEnv) : RunResult :=
  { result := Except.ok ()
    actions := [Action.deletePVC (srcPVCName req), Action.patchPVC (srcPVCName req)]
    logs :=
      (match env.deleteSrcPVCErr with
        | some e => ["unable to delete source PVC: " ++ e]
        | none => []) ++
      (match env.patchSrcPVCErr with
        | some e => ["unable to patch source PVC: " ++ e]
        | none => []) }

/-- The `checkPVC` call made after creating the final claim.  Note the Go
code polls `srcPVCName` — the staging claim — here, not
`pvcRequestConfig.Name` (the comment in the source reads
`rolling backoff check for proper PVC status` and the call is
`a.checkPVC(pvcRequestConfig.Namespace, srcPVCName)`). -/
def stageFinalWait (req : PVCRequestConfig) (env : CreateEnv) : RunResult :=
  withAction (Action.boundWait (srcPVCName req))
    (match (checkPVC env.postCreatePhase).result with
      | Except.error e =>
        { result := Except.error e
          actions := []
          logs := ["checkPVC failed: " ++ e] }
      | Except.ok _ => stageReclaim req env)

/-- Creation of the final read-only claim (`pvcSpecification`, named
`pvcRequestConfig.Name`, `ReadOnlyMany`, `DataSource` = the staging claim,
and the same `storageQtyBuffer` capacity).  On failure the error is returned
with no cleanup (the source carries a `@TODO if error clean up src PVC`). -/
def stageFinalCreate (req : PVCRequestConfig) (env : CreateEnv)
    (capacity : ℤ) : RunResult :=
  withAction (Action.createPVC req.name capacity)
    (match env.createFinalPVCErr with
      | some e =>
        { result := Except.error e
          actions := []
          logs := ["unable to create PVC: " ++ e] }
      | none => stageFinalWait req env)

/-- The `checkJob` wait on the copy job followed by the best-effort job
deletion (`unable to cleanup job` is logged, not returned). -/
def stageJobWait (req : PVCRequestConfig) (env : CreateEnv)
    (runEst : Nat) (capacity : ℤ) : RunResult :=
  match (checkJob env.jobStatus runEst).result with
  | Except.error e => { result := Except.error e, actions := [], logs := [] }
  | Except.ok _ =>
    withAction (Action.deleteJob (jobName req))
      (withLog
        (match env.deleteJobErr with
          | some e => ["unable to cleanup job: " ++ e]
          | none => [])
        (stageFinalCreate req env capacity))

/-- Creation of the copy job (`jobSpecification`, named
`<name>-injector`, mounting the staging claim).  On failure the code
attempts a compensating delete of the staging claim whose own error is only
logged, and returns the job-creation error. -/
def stageJobCreate (req : PVCRequestConfig) (env : CreateEnv)
    (runEst : Nat) (capacity : ℤ) : RunResult :=
  withAction (Action.createJob (jobName req))
    (match env.createJobErr with
      | some e =>
        { result := Except.error e
          actions := [Action.deletePVC (srcPVCName req)]
          logs := ["could not create job: " ++ e, "could not delete pvc"] }
      | none => stageJobWait req env runEst capacity)

/-- The `checkPVC` bound-wait on the staging claim right after its creation.
A timeout or Get error aborts the workflow with that error (the staging claim
is left in place). -/
def stageSrcWait (req : PVCRequestConfig) (env : CreateEnv)
    (runEst : Nat) (capacity : ℤ) : RunResult :=
  withAction (Action.boundWait (srcPVCName req))
    (match (checkPVC env.srcPhase).result with
      | Except.error e =>
        { result := Except.error e
          actions := []
          logs := ["checkPVC failed: " ++ e] }
      | Except.ok _ => stageJobCreate req env runEst capacity)

/-- Creation of the staging claim (`srcPVCSpecification`, named `<name>-src`,
`ReadWriteOnce`, capacity `storageQtyBuffer`).  A creation failure is
returned directly (nothing else has been created yet). -/
def stageStaging (req : PVCRequestConfig) (env : CreateEnv)
    (runEst : Nat) (capacity : ℤ) : RunResult :=
  withAction (Action.createPVC (srcPVCName req) capacity)
    (match env.createSrcPVCErr with
      | some e => { result := Except.error e, actions := [], logs := [] }
      | none => stageSrcWait req env runEst capacity)

/-- The sizing step of `CreatePVC`: `objCount, sz, err := a.GetSize(...)`
(an error is returned as-is), then `runEst := sz / (int64(a.AvgMPS) * 1048576)`
(int64 division, i.e. floor on non-negative values) and the
`storageQtyBuffer` capacity, both passed to the later steps.  `objCount` only
feeds annotations and log fields, which are not modelled. -/
def stageSizing (cfg : Config) (req : PVCRequestConfig) (env : CreateEnv) :
    RunResult :=
  match env.sizeResult with
  | Except.error e => { result := Except.error e, actions := [], logs := [] }
  | Except.ok (_objCount, sz) =>
    stageStaging req env (sz / (cfg.avgMPS * 1048576))
      (requestedCapacity sz cfg.volumeOveragePercent)

/-- `(a *API) CreatePVC(pvcRequestConfig) error`.  The two validation checks
discard the `Get` errors (`existingPVC, _ := pvcClient.Get(...)`) and reject
with `found a <phase> PVC named <name>` when the returned object has a
non-empty name; the first check formats `pvcRequestConfig.Name`, the second
formats `existingSrcPVC.Name`.  Otherwise the workflow proceeds through
`stageSizing`. -/
def CreatePVC (cfg : Config) (req : PVCRequestConfig) (env : CreateEnv) :
    RunResult :=
  if foundExisting env.getExisting then
    { result := Except.error
        ("found a " ++ foundPhase env.getExisting ++ " PVC named " ++ req.name)
      actions := []
      logs := [] }
  else if foundExisting env.getExistingSrc then
    { result := Except.error
        ("found a " ++ foundPhase env.getExistingSrc ++ " PVC named "
          ++ foundName env.getExistingSrc)
      actions := []
      logs := [] }
  else
    stageSizing cfg req env

/-- The names polled by the `checkPVC` bound-waits of a run, in order. -/
def boundWaitTargets (acts : List Action) : List String :=
  acts.filterMap fun a =>
    match a with
    | Action.boundWait n => some n
    | _ => none

/-!
### Concrete sample inputs, used by witnesses and counterexamples
-/

/-- The default configuration of the service (`VOLUME_OVERAGE_PCT=25`,
`AVG_MPS=13` in `main.go`). -/
def sampleCfg : Config := { volumeOveragePercent := 25, avgMPS := 13 }

/-- A sample provisioning request. -/
def sampleReq : PVCRequestConfig :=
  { ns := "default", name := "data", storageClass := "rook-ceph-block" }

/-- An environment in which every cluster and object-store interaction
succeeds: both validation Gets return an empty object (claim absent), the
bucket holds 3 objects of 9000000 bytes total, every create succeeds, every
polled claim is immediately `Bound` and the copy job immediately reports
`Succeeded = 1`. -/
def happyEnv : CreateEnv :=
  { getExistingErr := none
    getExisting := some { name := "", phase := ClaimPhase.Pending }
    getExistingSrcErr := none
    getExistingSrc := some { name := "", phase := ClaimPhase.Pending }
    sizeResult := Except.ok (3, 9000000)
    createSrcPVCErr := none
    srcPhase := fun _ => Except.ok ClaimPhase.Bound
    createJobErr := none
    jobStatus := fun _ => Except.ok { active := 0, succeeded := 1, failed := 0 }
    deleteJobErr := none
    createFinalPVCErr := none
    postCreatePhase := fun _ => Except.ok ClaimPhase.Bound
    deleteSrcPVCErr := none
    patchSrcPVCErr := none }

/-- A `getPVC` response sequence whose claim is `Lost` on every observation. -/
def lostPhases : Nat → ClaimPhase := fun _ => ClaimPhase.Lost

/-- A `getJob` response sequence whose job stays active forever (no
success, no failure). -/
def neverDoneJob : Nat → Except String JobStatus :=
  fun _ => Except.ok { active := 1, succeeded := 0, failed := 0 }

/-- A `getPVC` response sequence whose claim stays `Pending` forever. -/
def pendingPhases : Nat → Except String ClaimPhase :=
  fun _ => Except.ok ClaimPhase.Pending

/-- A `getPVC` response sequence whose claim is `Bound` on the 3rd check
(index 2) and `Pending` before. -/
def boundOnThird : Nat → Except String ClaimPhase :=
  fun i => if i = 2 then Except.ok ClaimPhase.Bound else Except.ok ClaimPhase.Pending

/-!
### Helper lemmas
-/

/-- When every `getPVC` call succeeds with a phase other than `Bound`,
`checkPVCLoop` consumes its whole schedule: one sleep and one check per
scheduled duration, then the timeout error. -/
theorem checkPVCLoop_never_bound (get : Nat → Except String ClaimPhase)
    (h : ∀ i, ∃ p, get i = Except.ok p ∧ p ≠ ClaimPhase.Bound)
    (ds : List Nat) :
    ∀ attempt, checkPVCLoop get attempt ds
      = { result := Except.error "requested PVC is unable to reach Bound phase"
          sleeps := ds
          checks := ds.length } := by
  induction ds with
  | nil => intro attempt; rfl
  | cons d rest ih =>
    intro attempt
    obtain ⟨p, hp, hnb⟩ := h attempt
    simp [checkPVCLoop, hp, hnb, ih (attempt + 1)]

/-- When every `getJob` call succeeds with no failed and no succeeded pods,
`checkJobLoop` runs its whole budget: one check per unit of fuel, one more
sleep than checks, then the timeout error. -/
theorem checkJobLoop_pending (get : Nat → Except String JobStatus)
    (h : ∀ i, ∃ js, get i = Except.ok js ∧ js.failed ≤ 0 ∧ js.succeeded ≤ 0) :
    ∀ fuel attempt, checkJobLoop get attempt fuel
      = { result := Except.error "job is unable to complete in allotted time"
          sleeps := List.replicate (fuel + 1) JobAttemptInterval
          checks := fuel } := by
  intro fuel
  induction fuel with
  | zero => intro attempt; rfl
  | succ r ih =>
    intro attempt
    obtain ⟨js, hjs, hf, hs⟩ := h attempt
    simp [checkJobLoop, hjs, not_lt.mpr hf, not_lt.mpr hs, ih (attempt + 1),
      List.replicate_succ]

/-- Correctness of `log2Fuel`: with enough fuel it returns the floor
binary logarithm. -/
theorem log2Fuel_bounds :
    ∀ fuel n, 1 ≤ n → n ≤ fuel →
      2 ^ log2Fuel fuel n ≤ n ∧ n < 2 ^ (log2Fuel fuel n + 1) := by
  intro fuel
  induction fuel with
  | zero => intro n h1 h2; omega
  | succ fuel ih =>
    intro n h1 h2
    by_cases hn : n ≤ 1
    · have hn1 : n = 1 := by omega
      subst hn1
      simp [log2Fuel]
    · obtain ⟨hl, hh⟩ := ih (n / 2) (by omega) (by omega)
      simp only [log2Fuel, if_neg hn]
      have e1 : 2 ^ (log2Fuel fuel (n / 2) + 1)
          = 2 * 2 ^ log2Fuel fuel (n / 2) := by ring
      have e2 : 2 ^ (log2Fuel fuel (n / 2) + 1 + 1)
          = 2 * 2 ^ (log2Fuel fuel (n / 2) + 1) := by ring
      omega

/-- Correctness of `clog2Fuel`: with enough fuel it returns the ceiling
binary logarithm (smallest `m` with `n ≤ 2^m`). -/
theorem clog2Fuel_bounds :
    ∀ fuel n, 1 ≤ n → n ≤ fuel →
      n ≤ 2 ^ clog2Fuel fuel n
      ∧ (clog2Fuel fuel n = 0 ∨ 2 ^ (clog2Fuel fuel n - 1) < n) := by
  intro fuel
  induction fuel with
  | zero => intro n h1 h2; omega
  | succ fuel ih =>
    intro n h1 h2
    by_cases hn : n ≤ 1
    · have hn1 : n = 1 := by omega
      subst hn1
      simp [clog2Fuel]
    · obtain ⟨hl, hh⟩ := ih ((n + 1) / 2) (by omega) (by omega)
      simp only [clog2Fuel, if_neg hn, Nat.add_sub_cancel]
      have e1 : 2 ^ (clog2Fuel fuel ((n + 1) / 2) + 1)
          = 2 * 2 ^ clog2Fuel fuel ((n + 1) / 2) := by ring
      refine ⟨by omega, Or.inr ?_⟩
      rcases hh with hk0 | hstrict
      · rw [hk0] at hl ⊢
        norm_num at hl ⊢
        omega
      · have e3 : 2 ^ clog2Fuel fuel ((n + 1) / 2)
            = 2 * 2 ^ (clog2Fuel fuel ((n + 1) / 2) - 1) := by
          rcases Nat.eq_zero_or_pos (clog2Fuel fuel ((n + 1) / 2)) with h0 | hpos
          · rw [h0] at hl hstrict
            norm_num at hl hstrict
            omega
          · conv_lhs => rw [show clog2Fuel fuel ((n + 1) / 2)
                = clog2Fuel fuel ((n + 1) / 2) - 1 + 1 by omega]
            ring
        omega

/-- Bridge between `ℚ`-valued integer powers of two and `ℕ` powers. -/
theorem two_zpow_natCast (k : ℕ) : (2 : ℚ) ^ (k : ℤ) = ((2 ^ k : ℕ) : ℚ) := by
  rw [zpow_natCast]
  push_cast
  ring

/-- `qlog2` really is the binade exponent: `2 ^ qlog2 x ≤ x < 2 ^ (qlog2 x + 1)`
for every positive rational. -/
theorem qlog2_bounds (x : ℚ) (hx : 0 < x) :
    (2 : ℚ) ^ qlog2 x ≤ x ∧ x < (2 : ℚ) ^ (qlog2 x + 1) := by
  unfold qlog2
  by_cases h1 : 1 ≤ x
  · rw [if_pos h1]
    have hf1 : 1 ≤ Nat.floor x := Nat.le_floor (by exact_mod_cast h1)
    obtain ⟨hl, hh⟩ := log2Fuel_bounds (Nat.floor x) (Nat.floor x) hf1 le_rfl
    constructor
    · calc (2 : ℚ) ^ (nlog2 (Nat.floor x) : ℤ)
          = ((2 ^ nlog2 (Nat.floor x) : ℕ) : ℚ) := two_zpow_natCast _
        _ ≤ (Nat.floor x : ℚ) := by exact_mod_cast hl
        _ ≤ x := Nat.floor_le hx.le
    · have hs : Nat.floor x + 1 ≤ 2 ^ (nlog2 (Nat.floor x) + 1) := hh
      calc x < Nat.floor x + 1 := Nat.lt_floor_add_one x
        _ ≤ ((2 ^ (nlog2 (Nat.floor x) + 1) : ℕ) : ℚ) := by exact_mod_cast hs
        _ = (2 : ℚ) ^ ((nlog2 (Nat.floor x) : ℤ) + 1) := by
            rw [show (nlog2 (Nat.floor x) : ℤ) + 1
                = ((nlog2 (Nat.floor x) + 1 : ℕ) : ℤ) by push_cast; ring]
            rw [two_zpow_natCast]
  · rw [if_neg h1]
    push_neg at h1
    have hinv : 1 < x⁻¹ := one_lt_inv_iff₀.mpr ⟨hx, h1⟩
    have hn2 : 2 ≤ Nat.ceil x⁻¹ := by
      have := Nat.lt_ceil.mpr (show ((1 : ℕ) : ℚ) < x⁻¹ by exact_mod_cast hinv)
      omega
    obtain ⟨hl, hh⟩ :=
      clog2Fuel_bounds (Nat.ceil x⁻¹) (Nat.ceil x⁻¹) (by omega) le_rfl
    rw [show clog2Fuel (Nat.ceil x⁻¹) (Nat.ceil x⁻¹) = nclog2 (Nat.ceil x⁻¹)
      from rfl] at hl hh
    have hm1 : 1 ≤ nclog2 (Nat.ceil x⁻¹) := by
      by_contra hc
      push_neg at hc
      have h0 : nclog2 (Nat.ceil x⁻¹) = 0 := by omega
      rw [h0] at hl
      simp only [pow_zero] at hl
      omega
    have hstrict : 2 ^ (nclog2 (Nat.ceil x⁻¹) - 1) < Nat.ceil x⁻¹ := by
      rcases hh with h0 | h
      · omega
      · exact h
    constructor
    · have hle : x⁻¹ ≤ (2 : ℚ) ^ (nclog2 (Nat.ceil x⁻¹) : ℤ) := by
        rw [two_zpow_natCast]
        exact le_trans (Nat.le_ceil x⁻¹) (by exact_mod_cast hl)
      have hfin := inv_le_of_inv_le₀ hx hle
      calc (2 : ℚ) ^ (-(nclog2 (Nat.ceil x⁻¹) : ℤ))
          = ((2 : ℚ) ^ (nclog2 (Nat.ceil x⁻¹) : ℤ))⁻¹ := by rw [zpow_neg]
        _ ≤ x := hfin
    · have hlt : ((2 ^ (nclog2 (Nat.ceil x⁻¹) - 1) : ℕ) : ℚ) < x⁻¹ := by
        have hceil : (Nat.ceil x⁻¹ : ℚ) < x⁻¹ + 1 :=
          Nat.ceil_lt_add_one (by positivity)
        have hnat : ((2 ^ (nclog2 (Nat.ceil x⁻¹) - 1) : ℕ) : ℚ) + 1
            ≤ (Nat.ceil x⁻¹ : ℚ) := by
          exact_mod_cast hstrict
        linarith
      have hpow : (0 : ℚ) < ((2 ^ (nclog2 (Nat.ceil x⁻¹) - 1) : ℕ) : ℚ) := by
        positivity
      have hxlt : x < (((2 ^ (nclog2 (Nat.ceil x⁻¹) - 1) : ℕ) : ℚ))⁻¹ :=
        (lt_inv_comm₀ hx hpow).mpr hlt
      calc x < (((2 ^ (nclog2 (Nat.ceil x⁻¹) - 1) : ℕ) : ℚ))⁻¹ := hxlt
        _ = (2 : ℚ) ^ (-(nclog2 (Nat.ceil x⁻¹) : ℤ) + 1) := by
            rw [← two_zpow_natCast, ← zpow_neg]
            congr 1
            omega

/-- The binade exponent is determined by the sandwich bounds. -/
theorem qlog2_eq (x : ℚ) (e : ℤ) (hx : 0 < x)
    (hlo : (2 : ℚ) ^ e ≤ x) (hhi : x < (2 : ℚ) ^ (e + 1)) : qlog2 x = e := by
  obtain ⟨hl, hh⟩ := qlog2_bounds x hx
  have h1 := (zpow_lt_zpow_iff_right₀ (by norm_num : (1 : ℚ) < 2)).mp
    (lt_of_le_of_lt hl hhi)
  have h2 := (zpow_lt_zpow_iff_right₀ (by norm_num : (1 : ℚ) < 2)).mp
    (lt_of_le_of_lt hlo hh)
  omega

/-- Round-to-nearest never rounds below the floor. -/
theorem floor_le_rhe (q : ℚ) : Int.floor q ≤ rhe q := by
  unfold rhe
  split_ifs <;> omega

/-- Round-to-nearest never exceeds the floor plus one. -/
theorem rhe_le_floor_add_one (q : ℚ) : rhe q ≤ Int.floor q + 1 := by
  unfold rhe
  split_ifs <;> omega

/-- Round-to-nearest never exceeds the ceiling. -/
theorem rhe_le_ceil (q : ℚ) : rhe q ≤ Int.ceil q := by
  unfold rhe
  split_ifs with h1 h2 h3
  · exact Int.floor_le_ceil q
  · have hlt : (Int.floor q : ℚ) < q := by linarith
    have := Int.lt_ceil.mpr hlt
    omega
  · exact Int.floor_le_ceil q
  · have hlt : (Int.floor q : ℚ) < q := by
      push_neg at h1
      linarith
    have := Int.lt_ceil.mpr hlt
    omega

/-- Round-to-nearest-even is monotone. -/
theorem rhe_mono {a b : ℚ} (h : a ≤ b) : rhe a ≤ rhe b := by
  rcases lt_or_le (Int.floor a) (Int.floor b) with hf | hf
  · have h1 := rhe_le_floor_add_one a
    have h2 := floor_le_rhe b
    omega
  · have hfe : Int.floor a = Int.floor b :=
      le_antisymm (Int.floor_le_floor h) hf
    have hfr : a - (Int.floor b : ℚ) ≤ b - (Int.floor b : ℚ) := by linarith
    unfold rhe
    rw [hfe]
    split_ifs <;> first | omega | (exfalso; linarith)

/-- Binary64 rounding maps nonnegative values to nonnegative values. -/
theorem fl_nonneg (x : ℚ) : 0 ≤ fl x := by
  unfold fl
  split_ifs with h
  · exact le_refl 0
  · push_neg at h
    have hu : (0 : ℚ) < 2 ^ (qlog2 x - 52) := by positivity
    have hq : 0 ≤ x / 2 ^ (qlog2 x - 52) := by positivity
    have h1 : (0 : ℤ) ≤ rhe (x / 2 ^ (qlog2 x - 52)) :=
      le_trans (Int.floor_nonneg.mpr hq) (floor_le_rhe _)
    exact mul_nonneg (by exact_mod_cast h1) hu.le

/-- Binary64 rounding never leaves the binade upward: `fl x ≤ 2^(e+1)`. -/
theorem fl_le_two_zpow (x : ℚ) (hx : 0 < x) :
    fl x ≤ 2 ^ (qlog2 x + 1) := by
  obtain ⟨_, hh⟩ := qlog2_bounds x hx
  unfold fl
  rw [if_neg (not_le.mpr hx)]
  have hu : (0 : ℚ) < 2 ^ (qlog2 x - 52) := by positivity
  have hpw : ((2 ^ 53 : ℤ) : ℚ) * 2 ^ (qlog2 x - 52) = 2 ^ (qlog2 x + 1) := by
    rw [show ((2 ^ 53 : ℤ) : ℚ) = (2 : ℚ) ^ (53 : ℤ) by norm_num]
    rw [← zpow_add₀ (by norm_num : (2 : ℚ) ≠ 0)]
    congr 1
    ring
  have hq : x / 2 ^ (qlog2 x - 52) ≤ ((2 ^ 53 : ℤ) : ℚ) := by
    rw [div_le_iff₀ hu, hpw]
    exact hh.le
  have h1 : rhe (x / 2 ^ (qlog2 x - 52)) ≤ 2 ^ 53 :=
    le_trans (rhe_le_ceil _) (Int.ceil_le.mpr hq)
  calc (rhe (x / 2 ^ (qlog2 x - 52)) : ℚ) * 2 ^ (qlog2 x - 52)
      ≤ ((2 ^ 53 : ℤ) : ℚ) * 2 ^ (qlog2 x - 52) :=
        mul_le_mul_of_nonneg_right (by exact_mod_cast h1) hu.le
    _ = 2 ^ (qlog2 x + 1) := hpw

/-- Binary64 rounding never leaves the binade downward: `2^e ≤ fl x`. -/
theorem two_zpow_le_fl (x : ℚ) (hx : 0 < x) :
    2 ^ qlog2 x ≤ fl x := by
  obtain ⟨hl, _⟩ := qlog2_bounds x hx
  unfold fl
  rw [if_neg (not_le.mpr hx)]
  have hu : (0 : ℚ) < 2 ^ (qlog2 x - 52) := by positivity
  have hpw : ((2 ^ 52 : ℤ) : ℚ) * 2 ^ (qlog2 x - 52) = 2 ^ qlog2 x := by
    rw [show ((2 ^ 52 : ℤ) : ℚ) = (2 : ℚ) ^ (52 : ℤ) by norm_num]
    rw [← zpow_add₀ (by norm_num : (2 : ℚ) ≠ 0)]
    congr 1
    ring
  have hq : ((2 ^ 52 : ℤ) : ℚ) ≤ x / 2 ^ (qlog2 x - 52) := by
    rw [le_div_iff₀ hu, hpw]
    exact hl
  have h1 : (2 ^ 52 : ℤ) ≤ rhe (x / 2 ^ (qlog2 x - 52)) :=
    le_trans (Int.le_floor.mpr hq) (floor_le_rhe _)
  calc (2 : ℚ) ^ qlog2 x
      = ((2 ^ 52 : ℤ) : ℚ) * 2 ^ (qlog2 x - 52) := hpw.symm
    _ ≤ (rhe (x / 2 ^ (qlog2 x - 52)) : ℚ) * 2 ^ (qlog2 x - 52) :=
        mul_le_mul_of_nonneg_right (by exact_mod_cast h1) hu.le

/-- Binary64 rounding is monotone. -/
theorem fl_mono {x y : ℚ} (h : x ≤ y) : fl x ≤ fl y := by
  rcases le_or_lt x 0 with hx | hx
  · rw [show fl x = 0 by rw [fl, if_pos hx]]
    exact fl_nonneg y
  · have hy : 0 < y := lt_of_lt_of_le hx h
    have hq : qlog2 x ≤ qlog2 y := by
      obtain ⟨hxl, _⟩ := qlog2_bounds x hx
      obtain ⟨_, hyh⟩ := qlog2_bounds y hy
      have := (zpow_lt_zpow_iff_right₀ (by norm_num : (1 : ℚ) < 2)).mp
        (lt_of_le_of_lt (le_trans hxl h) hyh)
      omega
    rcases eq_or_lt_of_le hq with heq | hlt
    · unfold fl
      rw [if_neg (not_le.mpr hx), if_neg (not_le.mpr hy), ← heq]
      have hu : (0 : ℚ) < 2 ^ (qlog2 x - 52) := by positivity
      have hd : x / 2 ^ (qlog2 x - 52) ≤ y / 2 ^ (qlog2 x - 52) := by gcongr
      exact mul_le_mul_of_nonneg_right
        (by exact_mod_cast rhe_mono hd) hu.le
    · calc fl x ≤ 2 ^ (qlog2 x + 1) := fl_le_two_zpow x hx
        _ ≤ 2 ^ qlog2 y :=
            zpow_le_zpow_right₀ (by norm_num) (by omega)
        _ ≤ fl y := two_zpow_le_fl y hy

/-- Evaluation of `fl` when the scaled value rounds down (fractional part
below one half). -/
theorem fl_eq_down (x u : ℚ) (e n : ℤ) (hx : 0 < x)
    (hu : (2 : ℚ) ^ (e - 52) = u)
    (hlo : (2 : ℚ) ^ e ≤ x) (hhi : x < (2 : ℚ) ^ (e + 1))
    (hn : (n : ℚ) ≤ x / u) (hfr : x / u - n < 1 / 2) :
    fl x = n * u := by
  have he := qlog2_eq x e hx hlo hhi
  have hfl : Int.floor (x / u) = n :=
    Int.floor_eq_iff.mpr ⟨hn, by linarith⟩
  have hr : rhe (x / u) = n := by
    unfold rhe
    rw [hfl]
    rw [if_pos hfr]
  unfold fl
  rw [if_neg (not_le.mpr hx), he, hu, hr]

/-- Evaluation of `fl` when the scaled value rounds up (fractional part
above one half). -/
theorem fl_eq_up (x u : ℚ) (e n : ℤ) (hx : 0 < x)
    (hu : (2 : ℚ) ^ (e - 52) = u)
    (hlo : (2 : ℚ) ^ e ≤ x) (hhi : x < (2 : ℚ) ^ (e + 1))
    (hn : (n : ℚ) ≤ x / u) (hup : x / u < n + 1) (hfr : 1 / 2 < x / u - n) :
    fl x = (n + 1 : ℤ) * u := by
  have he := qlog2_eq x e hx hlo hhi
  have hfl : Int.floor (x / u) = n := Int.floor_eq_iff.mpr ⟨hn, hup⟩
  have hr : rhe (x / u) = n + 1 := by
    unfold rhe
    rw [hfl]
    rw [if_neg (by linarith), if_pos hfr]
  unfold fl
  rw [if_neg (not_le.mpr hx), he, hu, hr]

/-- The max-attempts arithmetic of `checkJob` collapses to a `max`. -/
theorem maxAttemptsFor_eq (t : Nat) :
    maxAttemptsFor t = max 6 ((3 * t + 9) / 10) := by
  simp only [maxAttemptsFor]
  split_ifs <;> omega

/-- Ceiling of a natural number divided by 10, as natural-number division. -/
theorem nat_ceil_div_ten (a : Nat) :
    Nat.ceil ((a : ℚ) / 10) = (a + 9) / 10 := by
  have h10 : (0 : ℚ) < 10 := by norm_num
  refine Nat.le_antisymm ?_ ?_
  · rw [Nat.ceil_le, div_le_iff₀ h10]
    exact_mod_cast (by omega : a ≤ (a + 9) / 10 * 10)
  · have h := Nat.le_ceil ((a : ℚ) / 10)
    rw [div_le_iff₀ h10] at h
    have h2 : a ≤ Nat.ceil ((a : ℚ) / 10) * 10 := by exact_mod_cast h
    omega

/-- `ceil(e * 1.5 / 5)` as natural-number arithmetic. -/
theorem ceil_est_formula (e : Nat) :
    Nat.ceil ((e : ℚ) * 1.5 / 5) = (3 * e + 9) / 10 := by
  have hq : (e : ℚ) * 1.5 / 5 = ((3 * e : ℕ) : ℚ) / 10 := by
    push_cast
    ring
  rw [hq, nat_ceil_div_ten]

/-!
### The claims
-/

/-- C3 (confirmed): the claim-bound poll sleeps the next scheduled duration
before each check (no check at time zero).  Against a claim that is never
`Bound` it performs exactly the 11 scheduled sleeps `[1,2,2,4,4,4,8,8,8,8,8]`
and 11 checks and returns the timeout error; against a claim whose phase is
`Bound` on the 3rd check it returns success after exactly 3 sleeps
(`[1,2,2]`). -/
theorem c3_backoff_schedule :
    checkPVC pendingPhases
      = { result := Except.error "requested PVC is unable to reach Bound phase"
          sleeps := [1, 2, 2, 4, 4, 4, 8, 8, 8, 8, 8]
          checks := 11 }
    ∧ checkPVC boundOnThird
      = { result := Except.ok (), sleeps := [1, 2, 2], checks := 3 } :=
  ⟨rfl, rfl⟩

/-- C10 (confirmed): the claim-bound wait treats every phase other than
`Bound` — `Lost` included — as still pending: for any sequence of observed
phases that never includes `Bound` it runs the full 11-attempt schedule and
returns the timeout error, never a distinct early failure. -/
theorem c10_all_non_bound_times_out (phases : Nat → ClaimPhase)
    (h : ∀ i, phases i ≠ ClaimPhase.Bound) :
    checkPVC (fun i => Except.ok (phases i))
      = { result := Except.error "requested PVC is unable to reach Bound phase"
          sleeps := retrySecs
          checks := 11 } := by
  unfold checkPVC
  rw [checkPVCLoop_never_bound (fun i => Except.ok (phases i))
    (fun i => ⟨phases i, rfl, h i⟩) retrySecs 0]
  rfl

/-- Witness for C10: a claim that is `Lost` on every observation. -/
theorem c10_witness :
    (∀ i, lostPhases i ≠ ClaimPhase.Bound)
    ∧ checkPVC (fun i => Except.ok (lostPhases i))
      = { result := Except.error "requested PVC is unable to reach Bound phase"
          sleeps := retrySecs
          checks := 11 } :=
  ⟨fun _ h => ClaimPhase.noConfusion h,
    c10_all_non_bound_times_out lostPhases (fun _ h => ClaimPhase.noConfusion h)⟩

/-- C2, counterexample: with `total_bytes = 0` and the default rate 13, the
claim predicts exactly `max(6, ceil(0 * 1.5 / 5)) = 6` status-check attempts
before the timeout failure, but the code performs 7 (the loop checks for
`attempt = 0 .. maxAttempts` inclusive before `attempt > maxAttempts`
fires). -/
theorem c2_counterexample :
    (checkJob neverDoneJob (0 / (13 * 1048576))).checks = 7
    ∧ max 6 (Nat.ceil (((0 / (13 * 1048576) : Nat) : ℚ) * 1.5 / 5)) = 6 := by
  constructor
  · rfl
  · norm_num

/-- C2 as amended (proved): for `est = total_bytes / (rate * 1048576)` (the
integer division the code performs), a run in which no attempt observes
`succeeded_count > 0` or `failed_count > 0` performs exactly
`max(6, ceil(est * 1.5 / 5)) + 1` status-check attempts, at 5-second
intervals (one extra trailing sleep), before returning the timeout failure
"job is unable to complete in allotted time". -/
theorem c2_job_attempts (sz rate : Nat) (_hrate : 0 < rate) (est : Nat)
    (_hest : est = sz / (rate * 1048576))
    (get : Nat → Except String JobStatus)
    (hget : ∀ i, ∃ js, get i = Except.ok js ∧ js.failed ≤ 0 ∧ js.succeeded ≤ 0) :
    (checkJob get est).result
      = Except.error "job is unable to complete in allotted time"
    ∧ (checkJob get est).checks = max 6 (Nat.ceil ((est : ℚ) * 1.5 / 5)) + 1
    ∧ (checkJob get est).sleeps
      = List.replicate (max 6 (Nat.ceil ((est : ℚ) * 1.5 / 5)) + 2) 5 := by
  have hmax : maxAttemptsFor est = max 6 (Nat.ceil ((est : ℚ) * 1.5 / 5)) := by
    rw [ceil_est_formula, maxAttemptsFor_eq]
  unfold checkJob
  rw [checkJobLoop_pending get hget (maxAttemptsFor est + 1) 0, hmax]
  exact ⟨rfl, rfl, rfl⟩

/-- Witness for C2's amended statement: `total_bytes = 0`, rate 13, job never
terminal. -/
theorem c2_witness :
    0 < 13 ∧ (0 : Nat) = 0 / (13 * 1048576)
    ∧ (∀ i, ∃ js, neverDoneJob i = Except.ok js
        ∧ js.failed ≤ 0 ∧ js.succeeded ≤ 0)
    ∧ ((checkJob neverDoneJob 0).result
        = Except.error "job is unable to complete in allotted time"
      ∧ (checkJob neverDoneJob 0).checks
        = max 6 (Nat.ceil (((0 : Nat) : ℚ) * 1.5 / 5)) + 1
      ∧ (checkJob neverDoneJob 0).sleeps
        = List.replicate (max 6 (Nat.ceil (((0 : Nat) : ℚ) * 1.5 / 5)) + 2) 5) :=
  ⟨by decide, by decide,
    fun _ => ⟨{ active := 1, succeeded := 0, failed := 0 }, rfl, by decide, by decide⟩,
    c2_job_attempts 0 13 (by decide) 0 (by decide) neverDoneJob
      (fun _ => ⟨{ active := 1, succeeded := 0, failed := 0 }, rfl, by decide, by decide⟩)⟩

/-- C4, counterexample: at `total_bytes = 390625`, `overage_percent = 10`
the exact formula gives `ceil(390625 * 1.048576 * 1.1) = ceil(450560) =
450560`, but the code's float64 evaluation accumulates rounding (the
literal `1.048576` and the quotient `10/100` are not representable and both
round up) to `450560.00000000006`, whose ceiling is `450561`: the claim's
equality with the exact formula is false of the program. -/
theorem c4_counterexample :
    requestedCapacity 390625 10 = 450561
    ∧ specRequestedCapacity 390625 10 = 450560
    ∧ requestedCapacity 390625 10 ≠ specRequestedCapacity 390625 10 := by
  have hc : float64Const1048576 = 4722366482869645 / 4503599627370496 := by
    have h := fl_eq_down (1048576 / 1000000) (1 / 4503599627370496)
      0 4722366482869645 (by norm_num) (by norm_num) (by norm_num)
      (by norm_num) (by norm_num) (by norm_num)
    unfold float64Const1048576
    rw [h]
    norm_num
  have hsz : fl (390625 : ℚ) = 390625 := by
    have h := fl_eq_down (390625 : ℚ) (1 / 17179869184)
      18 6710886400000000 (by norm_num) (by norm_num) (by norm_num)
      (by norm_num) (by norm_num) (by norm_num)
    rw [h]
    norm_num
  have hs1 : fl (390625 * (4722366482869645 / 4503599627370496)) = 409600 := by
    have h := fl_eq_up (390625 * (4722366482869645 / 4503599627370496))
      (1 / 17179869184) 18 7036874417766399 (by norm_num) (by norm_num)
      (by norm_num) (by norm_num) (by norm_num) (by norm_num) (by norm_num)
    rw [h]
    norm_num
  have hp : fl (10 : ℚ) = 10 := by
    have h := fl_eq_down (10 : ℚ) (1 / 562949953421312)
      3 5629499534213120 (by norm_num) (by norm_num) (by norm_num)
      (by norm_num) (by norm_num) (by norm_num)
    rw [h]
    norm_num
  have hd : fl ((10 : ℚ) / 100) = 3602879701896397 / 36028797018963968 := by
    have h := fl_eq_up ((10 : ℚ) / 100) (1 / 72057594037927936)
      (-4) 7205759403792793 (by norm_num) (by norm_num) (by norm_num)
      (by norm_num) (by norm_num) (by norm_num) (by norm_num)
    rw [h]
    norm_num
  have hpo : fl (1 + 3602879701896397 / 36028797018963968)
      = 2476979795053773 / 2251799813685248 := by
    have h := fl_eq_up (1 + 3602879701896397 / 36028797018963968)
      (1 / 4503599627370496) 0 4953959590107545 (by norm_num) (by norm_num)
      (by norm_num) (by norm_num) (by norm_num) (by norm_num) (by norm_num)
    rw [h]
    norm_num
  have hfin : fl (409600 * (2476979795053773 / 2251799813685248))
      = 7740561859543041 / 17179869184 := by
    have h := fl_eq_up (409600 * (2476979795053773 / 2251799813685248))
      (1 / 17179869184) 18 7740561859543040 (by norm_num) (by norm_num)
      (by norm_num) (by norm_num) (by norm_num) (by norm_num) (by norm_num)
    rw [h]
    norm_num
  have hcap : requestedCapacity 390625 10 = 450561 := by
    unfold requestedCapacity pctOver
    push_cast
    rw [hsz, hc, hs1, hp, hd, hpo, hfin]
    rw [Int.ceil_eq_iff]
    norm_num
  have hspec : specRequestedCapacity 390625 10 = 450560 := by
    unfold specRequestedCapacity
    push_cast
    rw [Int.ceil_eq_iff]
    norm_num
  refine ⟨hcap, hspec, ?_⟩
  rw [hcap, hspec]
  decide

/-- C4 as amended (proved): the storage capacity the code requests for the
staging claim (and reuses for the final claim) is the float64 evaluation
`int64(math.Ceil((float64(total_bytes) * 1.048576) * (1 +
float64(overage_percent)/100)))` — which can differ from the exact
`ceil(total_bytes * 1.048576 * (1 + overage_percent/100))` by the
accumulated roundings — and this quantity is monotonically non-decreasing
in both `total_bytes` and `overage_percent` (binary64 rounding is
monotone, so every stage of the chain is). -/
theorem c4_capacity_monotone (sz sz' pct pct' : Nat)
    (hsz : sz ≤ sz') (hpct : pct ≤ pct') :
    requestedCapacity sz pct ≤ requestedCapacity sz' pct
    ∧ requestedCapacity sz pct ≤ requestedCapacity sz pct' := by
  constructor
  · unfold requestedCapacity
    apply Int.ceil_le_ceil
    apply fl_mono
    apply mul_le_mul_of_nonneg_right _ (fl_nonneg _)
    apply fl_mono
    apply mul_le_mul_of_nonneg_right _ (fl_nonneg _)
    exact fl_mono (by exact_mod_cast hsz)
  · unfold requestedCapacity pctOver
    apply Int.ceil_le_ceil
    apply fl_mono
    apply mul_le_mul_of_nonneg_left _ (fl_nonneg _)
    apply fl_mono
    apply add_le_add_left
    apply fl_mono
    gcongr
    exact fl_mono (by exact_mod_cast hpct)

/-- Witness for C4's amended statement at scenario A's numbers
(9,000,000 bytes, 25% overage). -/
theorem c4_witness :
    9000000 ≤ 9000001 ∧ 25 ≤ 26
    ∧ (requestedCapacity 9000000 25 ≤ requestedCapacity 9000001 25
      ∧ requestedCapacity 9000000 25 ≤ requestedCapacity 9000000 26) :=
  ⟨by decide, by decide,
    c4_capacity_monotone 9000000 9000001 25 26 (by decide) (by decide)⟩

/-- `GetSizeLoop` over a prefix of good objects followed by an erroneous one
returns the accumulators advanced by exactly that prefix, together with the
first error, independently of everything after the error. -/
theorem gsLoopAccum (pre : List Int) (e : String)
    (post : List (Except String Int)) :
    ∀ c t : Int,
      GetSizeLoop (pre.map Except.ok ++ Except.error e :: post) c t
        = (c + pre.length, t + pre.sum, some e) := by
  induction pre with
  | nil =>
    intro c t
    simp [GetSizeLoop]
  | cons a rest ih =>
    intro c t
    have step : GetSizeLoop ((a :: rest).map Except.ok ++ Except.error e :: post) c t
        = GetSizeLoop (rest.map Except.ok ++ Except.error e :: post) (c + 1) (t + a) :=
      rfl
    rw [step, ih (c + 1) (t + a)]
    simp only [List.length_cons, List.sum_cons, Prod.mk.injEq]
    refine ⟨by push_cast; ring, by ring, trivial⟩

/-- C8, counterexample: on the listing `[ok 5, error, ok 7]` the code returns
`(1, 5, error)` — the object count and byte size accumulated before the error
ARE returned to the caller alongside the error (the claim asserts they are
not, i.e. that the result would carry no partial totals). -/
theorem c8_counterexample :
    GetSize [Except.ok 5, Except.error "listing failed", Except.ok 7]
      = (1, 5, some "listing failed")
    ∧ GetSize [Except.ok 5, Except.error "listing failed", Except.ok 7]
      ≠ (0, 0, some "listing failed") := by
  constructor
  · rfl
  · decide

/-- C8 as amended (proved): the first erroneous object terminates the
listing — the result does not depend on anything after it and no retry takes
place — and `GetSize` returns that error together with the partial object
count and cumulative byte size accumulated before the error. -/
theorem c8_first_error_fast_fail (pre : List Int) (e : String)
    (post : List (Except String Int)) :
    GetSize (pre.map Except.ok ++ Except.error e :: post)
      = ((pre.length : Int), pre.sum, some e) := by
  unfold GetSize
  rw [gsLoopAccum]
  simp

/-- Witness for the amended C8: one good object of 5 bytes, then an error,
then an unread object. -/
theorem c8_witness :
    GetSize (([5] : List Int).map Except.ok
        ++ Except.error "listing failed" :: [Except.ok 7])
      = ((([5] : List Int).length : Int), ([5] : List Int).sum, some "listing failed") :=
  c8_first_error_fast_fail [5] "listing failed" [Except.ok 7]

/-- C7 (confirmed): `GetStatus` itself never fails — its error return is
always nil; a pod-list failure sets the injector error flag, a nil or empty
labeled pod list sets the injector error fields with message
"no injectors found", and a claim-get failure sets the claim error fields
with the Get error's message. -/
theorem c7_status_never_fails (env : StatusEnv) :
    (GetStatus env).2 = none
    ∧ (env.podListErr.isSome = true → (GetStatus env).1.injectorHasError = true)
    ∧ ((env.podList = none ∨ env.podList = some []) →
        (GetStatus env).1.injectorHasError = true
        ∧ (GetStatus env).1.injectorError = "no injectors found")
    ∧ (∀ e, env.pvcGetErr = some e →
        (GetStatus env).1.pvcHasError = true
        ∧ (GetStatus env).1.pvcError = e) := by
  obtain ⟨ple, pl, pge, pg⟩ := env
  cases ple <;> rcases pl with _ | (_ | ⟨p, ps⟩) <;> cases pge <;> cases pg <;>
    simp [GetStatus]

/-- A status query against a cluster where both reads fail. -/
def sampleStatusEnv : StatusEnv :=
  { podListErr := some "connection refused"
    podList := none
    pvcGetErr := some "claim get failed"
    pvcGet := none }

/-- Witness for C7: both reads failing still yields a nil call error, with
the failures encoded as report fields. -/
theorem c7_witness :
    (GetStatus sampleStatusEnv).2 = none
    ∧ (GetStatus sampleStatusEnv).1.injectorHasError = true
    ∧ (GetStatus sampleStatusEnv).1.injectorError = "no injectors found"
    ∧ (GetStatus sampleStatusEnv).1.pvcHasError = true
    ∧ (GetStatus sampleStatusEnv).1.pvcError = "claim get failed" := by
  obtain ⟨h1, _h2, h3, h4⟩ := c7_status_never_fails sampleStatusEnv
  exact ⟨h1, (h3 (Or.inl rfl)).1, (h3 (Or.inl rfl)).2,
    (h4 "claim get failed" rfl).1, (h4 "claim get failed" rfl).2⟩

/-- C5 (confirmed): when the validation `Get` for `name` or for `name-src`
returns an existing claim (a named object), `CreatePVC` returns the conflict
error `found a <phase> PVC named <name>` and issues no call against the
cluster at all — no staging claim, no copy job, no final claim is created in
that run. -/
theorem c5_conflict_rejects (cfg : Config) (req : PVCRequestConfig)
    (env : CreateEnv)
    (h : foundExisting env.getExisting = true
      ∨ foundExisting env.getExistingSrc = true) :
    (∃ ph nm, (CreatePVC cfg req env).result
      = Except.error ("found a " ++ ph ++ " PVC named " ++ nm))
    ∧ (CreatePVC cfg req env).actions = [] := by
  by_cases h1 : foundExisting env.getExisting = true
  · exact ⟨⟨foundPhase env.getExisting, req.name, by simp [CreatePVC, h1]⟩,
      by simp [CreatePVC, h1]⟩
  · have h2 : foundExisting env.getExistingSrc = true := by
      rcases h with h | h
      · exact absurd h h1
      · exact h
    exact ⟨⟨foundPhase env.getExistingSrc, foundName env.getExistingSrc,
        by simp [CreatePVC, h1, h2]⟩,
      by simp [CreatePVC, h1, h2]⟩

/-- An environment in which the validation `Get` for the target name finds a
bound claim already named `data`. -/
def conflictEnv : CreateEnv :=
  { happyEnv with getExisting := some { name := "data", phase := ClaimPhase.Bound } }

/-- Witness for C5: an existing bound claim named `data` is rejected with no
action issued. -/
theorem c5_witness :
    (foundExisting conflictEnv.getExisting = true
      ∨ foundExisting conflictEnv.getExistingSrc = true)
    ∧ ((∃ ph nm, (CreatePVC sampleCfg sampleReq conflictEnv).result
        = Except.error ("found a " ++ ph ++ " PVC named " ++ nm))
      ∧ (CreatePVC sampleCfg sampleReq conflictEnv).actions = []) :=
  ⟨Or.inl (by decide),
    c5_conflict_rejects sampleCfg sampleReq conflictEnv (Or.inl (by decide))⟩

/-- C9 (confirmed): the two validation existence checks discard the Get
errors entirely — replacing them by any other values changes nothing in the
run — and whenever the two Gets yield no named object (as client-go does on
any failed Get, connectivity failures included) the workflow proceeds to the
sizing stage and from there to creation; a Get error can never abort the
workflow at the validation step. -/
theorem c9_validation_ignores_get_errors (cfg : Config)
    (req : PVCRequestConfig) (env : CreateEnv) (e1 e2 : Option String)
    (h1 : foundExisting env.getExisting = false)
    (h2 : foundExisting env.getExistingSrc = false) :
    CreatePVC cfg req
        { env with getExistingErr := e1, getExistingSrcErr := e2 }
      = CreatePVC cfg req env
    ∧ CreatePVC cfg req env = stageSizing cfg req env := by
  constructor
  · rfl
  · simp [CreatePVC, h1, h2]

/-- Witness for C9: both validation Gets fail with a connectivity error and
yield empty objects; the run is identical to the error-free one and enters
sizing. -/
theorem c9_witness :
    foundExisting happyEnv.getExisting = false
    ∧ foundExisting happyEnv.getExistingSrc = false
    ∧ (CreatePVC sampleCfg sampleReq
          { happyEnv with getExistingErr := some "connection refused",
                          getExistingSrcErr := some "connection refused" }
        = CreatePVC sampleCfg sampleReq happyEnv
      ∧ CreatePVC sampleCfg sampleReq happyEnv
        = stageSizing sampleCfg sampleReq happyEnv) :=
  ⟨by decide, by decide,
    c9_validation_ignores_get_errors sampleCfg sampleReq happyEnv
      (some "connection refused") (some "connection refused")
      (by decide) (by decide)⟩

/-- C6 (confirmed): once every step up to and including the post-create
bound-wait has succeeded, `CreatePVC` returns nil whatever the outcome of
the staging-claim deletion and of the finalizer-removal patch
(`env.deleteSrcPVCErr` and `env.patchSrcPVCErr` are unconstrained here, and
`env.deleteJobErr` likewise): the run deletes the staging claim, then patches
it, and neither operation's error reaches the caller.  (The code issues the
patch unconditionally; its failure when the delete already completed is
logged only, which satisfies the claim's "patches it ... if deletion does
not complete immediately".) -/
theorem c6_cleanup_errors_not_propagated (cfg : Config)
    (req : PVCRequestConfig) (env : CreateEnv) (cnt sz : Nat)
    (h1 : foundExisting env.getExisting = false)
    (h2 : foundExisting env.getExistingSrc = false)
    (h3 : env.sizeResult = Except.ok (cnt, sz))
    (h4 : env.createSrcPVCErr = none)
    (h5 : (checkPVC env.srcPhase).result = Except.ok ())
    (h6 : env.createJobErr = none)
    (h7 : (checkJob env.jobStatus (sz / (cfg.avgMPS * 1048576))).result
      = Except.ok ())
    (h8 : env.createFinalPVCErr = none)
    (h9 : (checkPVC env.postCreatePhase).result = Except.ok ()) :
    (CreatePVC cfg req env).result = Except.ok ()
    ∧ (CreatePVC cfg req env).actions
      = [Action.createPVC (srcPVCName req)
            (requestedCapacity sz cfg.volumeOveragePercent),
          Action.boundWait (srcPVCName req),
          Action.createJob (jobName req),
          Action.deleteJob (jobName req),
          Action.createPVC req.name
            (requestedCapacity sz cfg.volumeOveragePercent),
          Action.boundWait (srcPVCName req),
          Action.deletePVC (srcPVCName req),
          Action.patchPVC (srcPVCName req)] := by
  simp [CreatePVC, h1, h2, stageSizing, h3, stageStaging, h4, stageSrcWait, h5,
    stageJobCreate, h6, stageJobWait, h7, stageFinalCreate, h8, stageFinalWait,
    h9, stageReclaim, withAction, withLog]

/-- An otherwise fully successful run in which the staging-claim deletion,
the finalizer patch and the job cleanup all fail. -/
def failingCleanupEnv : CreateEnv :=
  { happyEnv with
    deleteJobErr := some "job delete failed"
    deleteSrcPVCErr := some "delete failed"
    patchSrcPVCErr := some "patch failed" }

/-- Witness for C6: with all three cleanup calls failing, the run still
returns nil and performs the delete-then-patch of the staging claim. -/
theorem c6_witness :
    (CreatePVC sampleCfg sampleReq failingCleanupEnv).result = Except.ok ()
    ∧ (CreatePVC sampleCfg sampleReq failingCleanupEnv).actions
      = [Action.createPVC (srcPVCName sampleReq)
            (requestedCapacity 9000000 sampleCfg.volumeOveragePercent),
          Action.boundWait (srcPVCName sampleReq),
          Action.createJob (jobName sampleReq),
          Action.deleteJob (jobName sampleReq),
          Action.createPVC sampleReq.name
            (requestedCapacity 9000000 sampleCfg.volumeOveragePercent),
          Action.boundWait (srcPVCName sampleReq),
          Action.deletePVC (srcPVCName sampleReq),
          Action.patchPVC (srcPVCName sampleReq)] :=
  c6_cleanup_errors_not_propagated sampleCfg sampleReq failingCleanupEnv 3 9000000
    (by decide) (by decide) rfl rfl rfl rfl rfl rfl rfl

/-- C1 (the claim is the intended behavior; the code diverges): in a fully
successful run, both `checkPVC` bound-waits poll the STAGING claim
`<name>-src` — the second bound-wait, performed right after the final
read-only claim `<name>` is created, is issued against `data-src` and not
against the final claim `data`.  The claim (and §4.4 step 8 of the
specification) requires the second wait to target the final claim; §9 of the
specification flags the code's behavior as a copy-paste defect. -/
theorem c1_final_wait_polls_staging_claim :
    (CreatePVC sampleCfg sampleReq happyEnv).result = Except.ok ()
    ∧ boundWaitTargets (CreatePVC sampleCfg sampleReq happyEnv).actions
      = [srcPVCName sampleReq, srcPVCName sampleReq]
    ∧ srcPVCName sampleReq = "data-src"
    ∧ sampleReq.name = "data"
    ∧ "data-src" ≠ "data" :=
  ⟨rfl, rfl, rfl, rfl, by decide⟩

end Pvci
